import Mathlib

/-
Verification development for the optlis decontamination-scheduling repository.

The development shallowly embeds the parts of the code the checked properties
are about:

* the static MILP model `model_1` of `optlis/solvers/cplex.py` (the schedule
  feasibility constraints: binary cleaning indicators, resource windows,
  precedence on start times, start/completion definitions, objective);
* the solution-evaluation helpers of `src/instances/notebook_utils.py`
  (`y_bar`, `overall_risk`, `weighted_sum_completion_dates`, `makespan`);
* the dynamic instance data model of `optlis/dynamic/problem_data.py`
  (`Instance`, `load_instance`, `_write_instance`, `resources`, `time_units`);
* the dynamic MILP model `make_lp` of `optlis/dynamic/models/milp.py`
  (concentration kinetics, operation indicators, crew capacities).

Python dictionaries are modelled as association lists, numpy float values as
rationals, and the fixed two-decimal formatting of the instance writer as exact
rounding to hundredths.  MILP variables become fields of a solution record and
each constraint family of the model becomes a `Prop` stating that the recorded
values satisfy the corresponding (in)equalities.
-/

namespace Optlis

/-! ## Static model (optlis/solvers/cplex.py, model_1)

Problem data of `model_1`: `D` (destinations/tasks), `p` (durations),
`r` (risks), `K` (total number of work troops), `T = G.time_periods`
(modelled as `Finset.range H`), and the precedence pairs produced by
`G.dag(p=relaxation_threshold)` (modelled as an explicit pair set). -/

structure StaticData where
  dest : Finset ℕ
  dur : ℕ → ℕ
  risk : ℕ → ℚ
  K : ℕ
  H : ℕ
  prec : Finset (ℕ × ℕ)

/-- Values taken by the decision variables of `model_1`: `x[i][t]` (binary
cleaning-start indicators), `S[i]` (start times), `C[i]` (completion times),
`makespan` and `overall_risk`. -/
structure StaticSol where
  x : ℕ → ℕ → ℕ
  S : ℕ → ℕ
  C : ℕ → ℕ
  makespan : ℕ
  overall_risk : ℚ

/-- The model's time periods `T` (indexed `0 .. H-1`). -/
def timePeriods (d : StaticData) : Finset ℕ :=
  Finset.range d.H

/-- The summation window `range(t - p[i] + 1, t + 1)` guarded by `tau >= 0` of
the resource constraint of `model_1` (natural subtraction realizes the guard). -/
def resourceWindow (d : StaticData) (i t : ℕ) : Finset ℕ :=
  Finset.Icc (t + 1 - d.dur i) t

/-- Variables `x` are `LpBinary`. -/
def xBinary (d : StaticData) (s : StaticSol) : Prop :=
  ∀ i ∈ d.dest, ∀ t ∈ timePeriods d, s.x i t ≤ 1

/-- Resource constraint of `model_1`: at every period, the tasks whose
occupation window covers the period consume at most `K` troops. -/
def resourceConstraint (d : StaticData) (s : StaticSol) : Prop :=
  ∀ t ∈ timePeriods d, (∑ i ∈ d.dest, ∑ τ ∈ resourceWindow d i t, s.x i τ) ≤ d.K

/-- Constraint `Clean_destination_i`: every destination is cleaned exactly once. -/
def cleanOnce (d : StaticData) (s : StaticSol) : Prop :=
  ∀ i ∈ d.dest, (∑ t ∈ timePeriods d, s.x i t) = 1

/-- Constraint `Start_i_before_j` for the pairs of `G.dag`. -/
def precedenceConstraint (d : StaticData) (s : StaticSol) : Prop :=
  ∀ e ∈ d.prec, s.S e.1 ≤ s.S e.2

/-- Constraint `Start_time_of_i`. -/
def startTimeDef (d : StaticData) (s : StaticSol) : Prop :=
  ∀ i ∈ d.dest, s.S i = ∑ t ∈ timePeriods d, t * s.x i t

/-- Constraint `Completion_time_of_i`. -/
def completionTimeDef (d : StaticData) (s : StaticSol) : Prop :=
  ∀ i ∈ d.dest, s.C i = ∑ t ∈ timePeriods d, (t + d.dur i) * s.x i t

/-- Constraint `Cmax_geq_C_i`. -/
def makespanConstraint (d : StaticData) (s : StaticSol) : Prop :=
  ∀ i ∈ d.dest, (∑ t ∈ timePeriods d, (t + d.dur i) * s.x i t) ≤ s.makespan

/-- Constraint computing the `overall_risk` objective of `model_1`. -/
def overallRiskDef (d : StaticData) (s : StaticSol) : Prop :=
  s.overall_risk = ∑ i ∈ d.dest, d.risk i * (s.C i : ℚ)

/-- Conjunction of all constraints of `model_1`: the static evaluator's
feasibility verdict on a schedule. -/
def model_1_feasible (d : StaticData) (s : StaticSol) : Prop :=
  xBinary d s ∧ resourceConstraint d s ∧ cleanOnce d s ∧ precedenceConstraint d s
    ∧ startTimeDef d s ∧ completionTimeDef d s ∧ makespanConstraint d s
    ∧ overallRiskDef d s

/-- Task `i` occupies time unit `t` (its cleaning interval `[S i, S i + dur i)`
covers `t`). -/
def covers (d : StaticData) (s : StaticSol) (i t : ℕ) : Prop :=
  s.S i ≤ t ∧ t < s.S i + d.dur i

/-! ## Solution evaluation helpers (src/instances/notebook_utils.py)

The solution dictionary produced by `import_solution` is modelled as an
association list from variable names to rational values; the completion
dates `cd_i` and the makespan are passed as their recorded values. -/

/-- Function `y_bar` of notebook_utils at one time unit: the sum of the risk
of the not yet cleaned sites (`t < cd[i]`). -/
def y_bar (dest : Finset ℕ) (r : ℕ → ℚ) (cd : ℕ → ℕ) (t : ℕ) : ℚ :=
  ∑ i ∈ dest.filter (fun i => t < cd i), r i

/-- Function `overall_risk` of notebook_utils: sums `y_bar` over
`range(1, makespan + 1)`. -/
def overall_risk (dest : Finset ℕ) (r : ℕ → ℚ) (cd : ℕ → ℕ) (makespan : ℕ) : ℚ :=
  ∑ t ∈ Finset.Icc 1 makespan, y_bar dest r cd t

/-- Function `weighted_sum_completion_dates` of notebook_utils
(model 2's objective function). -/
def weighted_sum_completion_dates (dest : Finset ℕ) (r : ℕ → ℚ) (cd : ℕ → ℕ) : ℚ :=
  ∑ i ∈ dest, r i * (cd i : ℚ)

/-- Function `makespan` of notebook_utils: looks `makespan` up in the solution
dictionary. -/
def solution_makespan (sol : List (String × ℚ)) : Option ℚ :=
  sol.lookup "makespan"

/-! ## Fixture data recorded by the repository's tests

Risks of the example instance as recorded by `test_export_instance`
(`tests/test_utils.py`), and the reference solution recorded by
`test_import_solution`. -/

/-- Task set of the example instance (`data/instances/example.dat`): tasks 1..8,
depot 0 excluded. -/
def exampleDest : Finset ℕ :=
  Finset.Icc 1 8

/-- Risk value of each node of the example instance, from the node lines
recorded by `test_export_instance`. -/
def exampleRisks (i : ℕ) : ℚ :=
  [0, 1/10, 2/10, 3/10, 4/10, 5/10, 5/10, 6/10, 7/10].getD i 0

/-- Completion dates of the reference solution, from the fixture of
`test_import_solution`. -/
def exampleCd (i : ℕ) : ℕ :=
  [0, 56, 50, 42, 36, 30, 22, 16, 10].getD i 0

/-- The reference solution dictionary of `data/solutions/example.sol`, as
recorded by `test_import_solution`. -/
def exampleSol : List (String × ℚ) :=
  [("cd_1", 56), ("cd_2", 50), ("cd_3", 42), ("cd_4", 36), ("cd_5", 30),
   ("cd_6", 22), ("cd_7", 16), ("cd_8", 10),
   ("makespan", 56), ("overall_risk", 426/5),
   ("sd_1", 50), ("sd_2", 42), ("sd_3", 36), ("sd_4", 30), ("sd_5", 22),
   ("sd_6", 16), ("sd_7", 10), ("sd_8", 1),
   ("y_0_8_1", 1), ("y_1_0_56", 1), ("y_2_1_50", 1), ("y_3_2_42", 1),
   ("y_4_3_36", 1), ("y_5_4_30", 1), ("y_6_5_22", 1), ("y_7_6_16", 1),
   ("y_8_7_10", 1)]

/-! ## Precedence graph (spec-modelled)

The class implementing `Graph.precedence` (optlis/static/problem_data.py) is
not among the provided sources; only its test `test_Graph__precedence` is. -/

/-- Modelled from the spec: `Graph.precedence` of the static problem data is
missing from the sources (only `tests/test_utils.py::test_Graph__precedence`
is present).  Per the spec (sections 3 and 4.2), two tasks `i`, `j` are ordered
`i -> j` when a normalized risk score between them exceeds the relaxation
threshold: the score is the difference of the (normalized, in `[0,1]`) risk
weights, and the pair is kept when `r i - r j > d`.  This realizes the spec's
monotone-relaxation requirement (section 8) and reproduces every pair set
recorded by the test for thresholds 0, 0.1, 0.3 and 1.  Depots never
participate: only members of the task set are paired. -/
def precedence (tasks : Finset ℕ) (r : ℕ → ℚ) (d : ℚ) : Finset (ℕ × ℕ) :=
  (tasks ×ˢ tasks).filter (fun ij => d < r ij.1 - r ij.2)

/-! ## Dynamic instance files (optlis/dynamic/problem_data.py)

A parsed instance file.  The plain-text file is a header line followed by
count-prefixed blocks of lines; the structure below holds the parsed lines
(numbers as exact rationals, the count lines implicit as the list lengths,
which is what `load_instance` asserts of a well-formed file). -/

/-- One parsed node line `nid ntype Qn Qc D` of a dynamic instance file
(everything parsed with `int`). -/
structure NodeRec where
  id : ℤ
  type : ℤ
  Qn : ℤ
  Qc : ℤ
  D : ℤ
  deriving DecidableEq

/-- A parsed dynamic instance file: per-product risk lines, degradation-rate
lines, metabolization-matrix rows, node lines, initial-concentration rows and
the trailing time horizon. -/
structure DynFile where
  riskLines : List (ℤ × ℚ)
  degLines : List (ℤ × ℚ)
  metabLines : List (ℤ × List ℚ)
  nodeLines : List NodeRec
  concLines : List (ℤ × List ℚ)
  horizon : ℤ
  deriving DecidableEq

/-- The dynamic `Instance` of optlis/dynamic/problem_data.py: the node list
plus the constructor attributes `_risk`, `_degradation_rate`,
`_metabolization_rate`, `_initial_concentration` (the two dictionaries are
modelled as association lists) and the `time_horizon` attribute set by
`load_instance`. -/
structure Instance where
  nodes : List NodeRec
  _risk : List ℚ
  _degradation_rate : List ℚ
  _metabolization_rate : List (ℤ × List ℚ)
  _initial_concentration : List (ℤ × List ℚ)
  time_horizon : ℤ

/-- Function `load_instance`: builds the `Instance` from the parsed blocks
(the ids of risk and degradation lines are read but unused) and stores the
trailing time horizon. -/
def load_instance (f : DynFile) : Instance where
  nodes := f.nodeLines
  _risk := f.riskLines.map Prod.snd
  _degradation_rate := f.degLines.map Prod.snd
  _metabolization_rate := f.metabLines
  _initial_concentration := f.concLines
  time_horizon := f.horizon

/-- Property `products`: `list(range(len(self._risk)))`. -/
def Instance.products (inst : Instance) : List ℕ :=
  List.range inst._risk.length

/-- Accessor `products_risk` (a numpy array indexed by product id). -/
def Instance.products_risk (inst : Instance) (p : ℕ) : ℚ :=
  inst._risk.getD p 0

/-- Accessor `degradation_rates`. -/
def Instance.degradation_rates (inst : Instance) (p : ℕ) : ℚ :=
  inst._degradation_rate.getD p 0

/-- Accessor `metabolizing_rates`: `self._metabolization_rate[p][q]`
(dictionary lookup by product id, then tuple indexing). -/
def Instance.metabolizing_rates (inst : Instance) (p q : ℕ) : ℚ :=
  ((inst._metabolization_rate.lookup (p : ℤ)).getD []).getD q 0

/-- Method `initial_concentration`: `self._initial_concentration[i][p]`. -/
def Instance.initial_concentration (inst : Instance) (i : ℤ) (p : ℕ) : ℚ :=
  ((inst._initial_concentration.lookup i).getD []).getD p 0

/-- Property `time_units`: the hardcoded `np.array(range(101))`. -/
def Instance.time_units (_inst : Instance) : List ℕ :=
  List.range 101

/-- Property `resources`: `dict(Qn=sum(...), Qc=sum(...))`, the sums of the
per-node `Qn` and `Qc` attributes (dictionary modelled as association list). -/
def Instance.resources (inst : Instance) : List (String × ℤ) :=
  [("Qn", (inst.nodes.map NodeRec.Qn).sum), ("Qc", (inst.nodes.map NodeRec.Qc).sum)]

/-- Exact model of Python's fixed two-decimal formatting `f"{v:.2f}"` used by
`_write_instance`: rounding to hundredths.  On values already representable
with two decimals (the well-formed files below) it is the identity, so the
half-way tie-breaking mode is immaterial there. -/
def round2 (q : ℚ) : ℚ :=
  ((⌊q * 100 + 1/2⌋ : ℤ) : ℚ) / 100

/-- Function `_write_instance`: writes the product count and the per-product
risk, degradation and metabolization blocks (values formatted to two
decimals), the node block (integers verbatim), the per-node concentration rows
and finally `T = instance.time_units[-1]`. -/
def _write_instance (inst : Instance) : DynFile where
  riskLines := inst.products.map (fun (p : ℕ) => ((p : ℤ), round2 (inst.products_risk p)))
  degLines := inst.products.map (fun (p : ℕ) => ((p : ℤ), round2 (inst.degradation_rates p)))
  metabLines := inst.products.map
    (fun (p : ℕ) => ((p : ℤ), inst.products.map (fun (s : ℕ) => round2 (inst.metabolizing_rates p s))))
  nodeLines := inst.nodes
  concLines := inst.nodes.map
    (fun nd => (nd.id, inst.products.map (fun p => round2 (inst.initial_concentration nd.id p))))
  horizon := ((inst.time_units.getLastD 0 : ℕ) : ℤ)

/-- Function `export_instance` writes `_write_instance`'s output to a file. -/
def export_instance (inst : Instance) : DynFile :=
  _write_instance inst

/-- Structural well-formedness of a parsed dynamic instance file: the block
sizes agree with the declared counts (`load_instance` consumes exactly that
many lines), the line ids are the positional ids `load_instance` and the
writer use, the node ids are distinct (dictionary keys), and every fractional
value is representable at the declared two-decimal precision. -/
def DynFile.wellFormed (f : DynFile) : Prop :=
  f.degLines.length = f.riskLines.length
    ∧ f.metabLines.length = f.riskLines.length
    ∧ f.concLines.length = f.nodeLines.length
    ∧ f.riskLines.map Prod.fst
        = (List.range f.riskLines.length).map (fun (k : ℕ) => (k : ℤ))
    ∧ f.degLines.map Prod.fst
        = (List.range f.degLines.length).map (fun (k : ℕ) => (k : ℤ))
    ∧ f.metabLines.map Prod.fst
        = (List.range f.metabLines.length).map (fun (k : ℕ) => (k : ℤ))
    ∧ f.concLines.map Prod.fst = f.nodeLines.map NodeRec.id
    ∧ (f.nodeLines.map NodeRec.id).Nodup
    ∧ (∀ l ∈ f.riskLines, round2 l.2 = l.2)
    ∧ (∀ l ∈ f.degLines, round2 l.2 = l.2)
    ∧ (∀ row ∈ f.metabLines, row.2.length = f.riskLines.length ∧ ∀ v ∈ row.2, round2 v = v)
    ∧ (∀ row ∈ f.concLines, row.2.length = f.riskLines.length ∧ ∀ v ∈ row.2, round2 v = v)

/-! ## Dynamic MILP model (optlis/dynamic/models/milp.py, make_lp)

Problem data consumed by `make_lp`: the task ids, the number of products
(`PRODUCTS = range nproducts`), the last time unit `H`
(`T = instance.time_periods[1:]` is `1..H`, time unit 0 discarded), the
per-task durations, the two crew capacities it looks up under `RESOURCES["R"]`
and `RESOURCES["N"]`, the product risks, degradation rates, metabolization
rates and initial concentrations. -/

structure DynData where
  tasks : Finset ℕ
  nproducts : ℕ
  H : ℕ
  dur : ℕ → ℕ
  capR : ℕ
  capN : ℕ
  risk : ℕ → ℚ
  dr : ℕ → ℚ
  mr : ℕ → ℕ → ℚ
  V : ℕ → ℕ → ℚ

/-- The big-M constant of `make_lp`. -/
def bigM : ℚ :=
  999999

/-- The `EPSILON` constant of `make_lp`. -/
def EPSILON : ℚ :=
  1/100

/-- The product id set `PRODUCTS`. -/
def PRODUCTS (dat : DynData) : Finset ℕ :=
  Finset.range dat.nproducts

/-- The time units `T = instance.time_periods[1:]` of `make_lp` (unit 0
discarded). -/
def Tset (dat : DynData) : Finset ℕ :=
  Finset.Icc 1 dat.H

/-- The time units `T[1:]` over which the kinetics constraints run. -/
def Ttail (dat : DynData) : Finset ℕ :=
  Finset.Icc 2 dat.H

/-- Values taken by the decision variables of `make_lp`: concentrations `w`,
completion indicators `u`, neutralize indicators `x`, remove-start indicators
`y`, remove-active indicators `z`, removed mass `r`, degraded mass `d`,
metabolized transfers `q`, completion times `c`, `makespan` and
`global_risk`. -/
structure DynSol where
  global_risk : ℚ
  w : ℕ → ℕ → ℕ → ℚ
  u : ℕ → ℕ → ℚ
  x : ℕ → ℕ → ℕ → ℚ
  y : ℕ → ℕ → ℚ
  z : ℕ → ℕ → ℚ
  r : ℕ → ℕ → ℕ → ℚ
  d : ℕ → ℕ → ℕ → ℚ
  q : ℕ → ℕ → ℕ → ℕ → ℚ
  c : ℕ → ℚ
  makespan : ℚ

/-- A value of an `LpBinary` variable. -/
def binary01 (v : ℚ) : Prop :=
  v = 0 ∨ v = 1

/-- Lower bounds (`lowBound=0`) of the continuous variables `global_risk`,
`w`, `r`, `d`, `q`, and binarity of `u`, `x`, `y`, `z`. -/
def varDomains (dat : DynData) (sol : DynSol) : Prop :=
  0 ≤ sol.global_risk
    ∧ (∀ i ∈ dat.tasks, ∀ p ∈ PRODUCTS dat, ∀ t ∈ Tset dat,
        0 ≤ sol.w i p t ∧ 0 ≤ sol.r i p t ∧ 0 ≤ sol.d i p t
          ∧ (∀ s ∈ PRODUCTS dat, 0 ≤ sol.q i p s t)
          ∧ binary01 (sol.x i p t))
    ∧ (∀ i ∈ dat.tasks, ∀ t ∈ Tset dat,
        binary01 (sol.u i t) ∧ binary01 (sol.y i t) ∧ binary01 (sol.z i t))
    ∧ (∀ i ∈ dat.tasks, 0 ≤ sol.c i ∧ (sol.c i).den = 1)
    ∧ 0 ≤ sol.makespan ∧ sol.makespan.den = 1

/-- Constraint computing the solution's global risk. -/
def globalRiskConstraint (dat : DynData) (sol : DynSol) : Prop :=
  sol.global_risk
    = ∑ i ∈ dat.tasks, ∑ p ∈ PRODUCTS dat, ∑ t ∈ Tset dat, dat.risk p * sol.w i p t

/-- Constraint setting the initial concentration (`w[i][p][1] == V[i][p]`). -/
def initialConcentrationConstraint (dat : DynData) (sol : DynSol) : Prop :=
  ∀ i ∈ dat.tasks, ∀ p ∈ PRODUCTS dat, sol.w i p 1 = dat.V i p

/-- Constraints calculating the products' metabolization (`q` bounds, skipped
for the sink product `s = 0`). -/
def metabolizationConstraint (dat : DynData) (sol : DynSol) : Prop :=
  ∀ t ∈ Ttail dat, ∀ i ∈ dat.tasks, ∀ p ∈ PRODUCTS dat, ∀ s ∈ PRODUCTS dat, s ≠ 0 →
    (sol.w i p (t-1) - sol.d i p t) * dat.mr p s - bigM * (sol.x i p t + sol.y i t)
        ≤ sol.q i p s t
      ∧ sol.q i p s t ≤ (sol.w i p (t-1) - sol.d i p t) * dat.mr p s

/-- Constraints calculating the products' degradation
(`d[i][p][t] == w[i][p][t-1] * dr(p)`). -/
def degradationConstraint (dat : DynData) (sol : DynSol) : Prop :=
  ∀ t ∈ Ttail dat, ∀ i ∈ dat.tasks, ∀ p ∈ PRODUCTS dat,
    sol.d i p t = sol.w i p (t-1) * dat.dr p

/-- Constraints updating concentration values based on performed operations. -/
def concentrationUpdateConstraint (dat : DynData) (sol : DynSol) : Prop :=
  ∀ t ∈ Ttail dat, ∀ i ∈ dat.tasks, ∀ p ∈ PRODUCTS dat,
    sol.w i p t
      = sol.w i p (t-1) - sol.d i p t
        + (∑ s ∈ PRODUCTS dat, sol.q i s p t) - (∑ s ∈ PRODUCTS dat, sol.q i p s t)
        - sol.r i p t

/-- Linearized neutralizing-operation constraints
(`q[i][p][0][t] == (w[i][p][t-1] - d[i][p][t]) * x[i][p][t]`). -/
def neutralizingConstraint (dat : DynData) (sol : DynSol) : Prop :=
  ∀ t ∈ Ttail dat, ∀ i ∈ dat.tasks, ∀ p ∈ PRODUCTS dat,
    0 ≤ sol.q i p 0 t
      ∧ sol.q i p 0 t ≤ sol.w i p (t-1) - sol.d i p t
      ∧ sol.q i p 0 t ≤ bigM * sol.x i p t
      ∧ sol.w i p (t-1) - sol.d i p t + bigM * sol.x i p t - bigM ≤ sol.q i p 0 t

/-- Linearized removal-operation constraints
(`r[i][p][t] == (w[i][p][t-1] - d[i][p][t]) * y[i][t]`). -/
def removalConstraint (dat : DynData) (sol : DynSol) : Prop :=
  ∀ t ∈ Ttail dat, ∀ i ∈ dat.tasks, ∀ p ∈ PRODUCTS dat,
    0 ≤ sol.r i p t
      ∧ sol.r i p t ≤ sol.w i p (t-1) - sol.d i p t
      ∧ sol.r i p t ≤ bigM * sol.y i t
      ∧ sol.w i p (t-1) - sol.d i p t + bigM * sol.y i t - bigM ≤ sol.r i p t

/-- The trailing window `range(t - DURATIONS[i] + 1, t + 1)` guarded by
`tau >= 1` used by the remove-active constraint (natural subtraction plus the
filter realizes the guard). -/
def removalWindow (dat : DynData) (i t : ℕ) : Finset ℕ :=
  (Finset.Icc (t + 1 - dat.dur i) t).filter (fun τ => 1 ≤ τ)

/-- Constraint defining the remove-active indicator
(`z[i][t] == sum(y[i][tau] for tau in window)`). -/
def removalActiveConstraint (dat : DynData) (sol : DynSol) : Prop :=
  ∀ t ∈ Tset dat, ∀ i ∈ dat.tasks,
    sol.z i t = ∑ τ ∈ removalWindow dat i t, sol.y i τ

/-- Resource constraint of the removal operation
(`sum(z[i][t]) <= RESOURCES["R"]`). -/
def removalResourceConstraint (dat : DynData) (sol : DynSol) : Prop :=
  ∀ t ∈ Tset dat, (∑ i ∈ dat.tasks, sol.z i t) ≤ (dat.capR : ℚ)

/-- Resource constraint of the neutralizing operation
(`sum(x[i][p][t]) <= RESOURCES["N"]`). -/
def neutralizingResourceConstraint (dat : DynData) (sol : DynSol) : Prop :=
  ∀ t ∈ Tset dat,
    (∑ i ∈ dat.tasks, ∑ p ∈ PRODUCTS dat, sol.x i p t) ≤ (dat.capN : ℚ)

/-- Constraint forbidding remove and neutralize on the same task at the same
time (`sum(x[i][p][t] for p) + z[i][t] <= 1`). -/
def operationExclusionConstraint (dat : DynData) (sol : DynSol) : Prop :=
  ∀ t ∈ Tset dat, ∀ i ∈ dat.tasks,
    (∑ p ∈ PRODUCTS dat, sol.x i p t) + sol.z i t ≤ 1

/-- Constraints calculating tasks' completion times and the makespan. -/
def completionTimeConstraint (dat : DynData) (sol : DynSol) : Prop :=
  ∀ i ∈ dat.tasks,
    (∀ t ∈ Tset dat,
        (∑ p ∈ PRODUCTS dat, dat.risk p * sol.w i p t) - EPSILON ≤ bigM * sol.u i t
          ∧ (t : ℚ) * sol.u i t ≤ sol.c i)
      ∧ sol.c i ≤ sol.makespan

/-- Constraint disabling operations at `t = 1`
(`sum(x[i][p][1] for p) + y[i][1] == 0`). -/
def warmupConstraint (dat : DynData) (sol : DynSol) : Prop :=
  ∀ i ∈ dat.tasks, (∑ p ∈ PRODUCTS dat, sol.x i p 1) + sol.y i 1 = 0

/-- Constraint forbidding neutralization of product 0
(`sum(x[i][0][t] for t) == 0`). -/
def noNeutralizeProductZeroConstraint (dat : DynData) (sol : DynSol) : Prop :=
  ∀ i ∈ dat.tasks, (∑ t ∈ Tset dat, sol.x i 0 t) = 0

/-- Conjunction of every constraint of `make_lp`: a feasible solution of the
dynamic model. -/
def make_lp_feasible (dat : DynData) (sol : DynSol) : Prop :=
  varDomains dat sol
    ∧ globalRiskConstraint dat sol
    ∧ initialConcentrationConstraint dat sol
    ∧ metabolizationConstraint dat sol
    ∧ degradationConstraint dat sol
    ∧ concentrationUpdateConstraint dat sol
    ∧ neutralizingConstraint dat sol
    ∧ removalConstraint dat sol
    ∧ removalActiveConstraint dat sol
    ∧ removalResourceConstraint dat sol
    ∧ neutralizingResourceConstraint dat sol
    ∧ operationExclusionConstraint dat sol
    ∧ completionTimeConstraint dat sol
    ∧ warmupConstraint dat sol
    ∧ noNeutralizeProductZeroConstraint dat sol

/-! ## Operation-sequence checking (spec-modelled)

The dynamic simulator that executes an operation sequence lives in the native
local-search kernel (`localsearch.so`, loaded over a foreign-call boundary in
optlis/solvers/localsearch.py); its source is not part of the provided files. -/

/-- An operation sequence handed to the dynamic simulator: neutralize
indicators per (task, product, time) and remove-start indicators per
(task, time). -/
structure OpSeq where
  neutralize : ℕ → ℕ → ℕ → Bool
  removeStart : ℕ → ℕ → Bool

/-- Number of remove starts of task `i` inside the trailing window of length
`dur i` ending at `t`: the remove operation is active at `t` when this is
positive. -/
def removeActiveCount (dat : DynData) (ops : OpSeq) (i t : ℕ) : ℕ :=
  ∑ τ ∈ removalWindow dat i t, if ops.removeStart i τ then 1 else 0

/-- An operation sequence violates the simulation constraints: some task has
both operation kinds active at some time unit, or a crew capacity is
exceeded. -/
def opsViolation (dat : DynData) (ops : OpSeq) : Prop :=
  ∃ t ∈ Tset dat,
    (∃ i ∈ dat.tasks,
        1 ≤ removeActiveCount dat ops i t
          ∧ ∃ p ∈ PRODUCTS dat, ops.neutralize i p t = true)
      ∨ dat.capR < ∑ i ∈ dat.tasks, (if 1 ≤ removeActiveCount dat ops i t then 1 else 0)
      ∨ dat.capN
          < ∑ i ∈ dat.tasks, ∑ p ∈ PRODUCTS dat, (if ops.neutralize i p t then 1 else 0)

instance (dat : DynData) (ops : OpSeq) : Decidable (opsViolation dat ops) := by
  unfold opsViolation
  infer_instance

/-- The simulator's failure mode. -/
inductive SimulationError where
  | InfeasibleOperationSequence
  deriving DecidableEq

/-- Modelled from the spec: the operation-sequence check of the dynamic
simulator (native kernel, source not provided).  Per the spec (sections 4.4
and 7), a sequence on which two operation kinds are simultaneously active on
the same task at the same time unit, or which exceeds a crew capacity, is
reported as `InfeasibleOperationSequence`; a conforming sequence is passed
through unchanged (violations are reported, never auto-corrected). -/
def checkOperationSequence (dat : DynData) (ops : OpSeq) :
    Except SimulationError OpSeq :=
  if opsViolation dat ops then .error .InfeasibleOperationSequence else .ok ops

instance (d : StaticData) (s : StaticSol) (i t : ℕ) : Decidable (covers d s i t) := by
  unfold covers
  infer_instance

/-! ## Concrete witness data

Small concrete instances and solutions on which the hypotheses of the
theorems below are checked to be satisfiable. -/

/-- A one-task static instance: task 1, duration 1, one troop, two periods,
no precedence pairs. -/
def exStatData : StaticData where
  dest := {1}
  dur := fun _ => 1
  risk := fun _ => 0
  K := 1
  H := 2
  prec := ∅

/-- The schedule cleaning task 1 at period 0. -/
def exStatSol : StaticSol where
  x := fun i t => if i = 1 ∧ t = 0 then 1 else 0
  S := fun _ => 0
  C := fun _ => 1
  makespan := 1
  overall_risk := 0

/-- A one-task two-product dynamic instance with zero rates and zero initial
concentration, horizon 2, capacities 1/1. -/
def exDynData : DynData where
  tasks := {1}
  nproducts := 2
  H := 2
  dur := fun _ => 1
  capR := 1
  capN := 1
  risk := fun _ => 0
  dr := fun _ => 0
  mr := fun _ _ => 0
  V := fun _ _ => 0

/-- The all-zero solution of the dynamic model on `exDynData`. -/
def exDynSol : DynSol where
  global_risk := 0
  w := fun _ _ _ => 0
  u := fun _ _ => 0
  x := fun _ _ _ => 0
  y := fun _ _ => 0
  z := fun _ _ => 0
  r := fun _ _ _ => 0
  d := fun _ _ _ => 0
  q := fun _ _ _ _ => 0
  c := fun _ => 0
  makespan := 0

/-- The empty operation sequence. -/
def exOpSeq : OpSeq where
  neutralize := fun _ _ _ => false
  removeStart := fun _ _ => false

/-- A concrete well-formed dynamic instance file: two products, two nodes
(depot 0 and task 1), time horizon 56. -/
def exFile : DynFile where
  riskLines := [(0, 0), (1, 1/2)]
  degLines := [(0, 0), (1, 1/4)]
  metabLines := [(0, [0, 0]), (1, [3/10, 0])]
  nodeLines := [⟨0, 0, 1, 1, 0⟩, ⟨1, 1, 0, 0, 1⟩]
  concLines := [(0, [0, 0]), (1, [0, 8/10])]
  horizon := 56

/-! ## Helper lemmas -/

/-- A 0/1-valued family summing to one over `range H` is the indicator of a
single index. -/
theorem sum_eq_one_unique {H : ℕ} {f : ℕ → ℕ} (hb : ∀ t ∈ Finset.range H, f t ≤ 1)
    (hs : (∑ t ∈ Finset.range H, f t) = 1) :
    ∃ σ ∈ Finset.range H, f σ = 1 ∧ ∀ τ ∈ Finset.range H, τ ≠ σ → f τ = 0 := by
  obtain ⟨σ, hσmem, hσne⟩ :=
    Finset.exists_ne_zero_of_sum_ne_zero (f := f) (by rw [hs]; exact one_ne_zero)
  have hfσ : f σ = 1 := by
    have h1 := hb σ hσmem
    omega
  refine ⟨σ, hσmem, hfσ, fun τ hτmem hτne => ?_⟩
  have hpair : f τ + f σ ≤ ∑ t ∈ Finset.range H, f t := by
    have hsub : ({τ, σ} : Finset ℕ) ⊆ Finset.range H := by
      intro a ha
      simp only [Finset.mem_insert, Finset.mem_singleton] at ha
      rcases ha with rfl | rfl
      · exact hτmem
      · exact hσmem
    have h := Finset.sum_le_sum_of_subset (f := f) hsub
    rwa [Finset.sum_pair hτne] at h
  omega

/-- The start-time expression of `model_1` evaluates to the indicator's
support point. -/
theorem start_value {H σ : ℕ} {f : ℕ → ℕ} (hσmem : σ ∈ Finset.range H)
    (h1 : f σ = 1) (h0 : ∀ τ ∈ Finset.range H, τ ≠ σ → f τ = 0) :
    (∑ t ∈ Finset.range H, t * f t) = σ := by
  rw [Finset.sum_eq_single_of_mem σ hσmem
    (fun b hb hne => by rw [h0 b hb hne, Nat.mul_zero])]
  rw [h1, Nat.mul_one]

/-- Summing an indicator family over a sub-window counts whether the support
point lies in the window. -/
theorem sum_indicator_window {H σ : ℕ} {f : ℕ → ℕ} (h1 : f σ = 1)
    (h0 : ∀ τ ∈ Finset.range H, τ ≠ σ → f τ = 0) (win : Finset ℕ)
    (hwin : win ⊆ Finset.range H) :
    (∑ τ ∈ win, f τ) = if σ ∈ win then 1 else 0 := by
  by_cases hmem : σ ∈ win
  · rw [if_pos hmem, Finset.sum_eq_single_of_mem σ hmem
      (fun b hb hne => h0 b (hwin hb) hne), h1]
  · rw [if_neg hmem]
    exact Finset.sum_eq_zero fun τ hτ =>
      h0 τ (hwin hτ) (fun hEq => hmem (hEq ▸ hτ))

/-! ## C3: static feasibility implies the capacity and precedence bounds -/

/-- C3.  Every schedule judged feasible by the static evaluator (`model_1`)
satisfies: at every time unit, the number of concurrently active tasks (tasks
whose occupied interval covers that unit) does not exceed the resource
capacity `K`, and for every precedence pair `i -> j` the start time of `i` is
at most the start time of `j`. -/
theorem static_feasible_capacity_precedence (d : StaticData) (s : StaticSol)
    (hf : model_1_feasible d s) :
    (∀ t ∈ timePeriods d, ((d.dest.filter (fun i => covers d s i t)).card ≤ d.K))
      ∧ ∀ e ∈ d.prec, s.S e.1 ≤ s.S e.2 := by
  obtain ⟨hb, hres, honce, hprec, hstart, -, -, -⟩ := hf
  refine ⟨fun t ht => ?_, hprec⟩
  have key : ∀ i ∈ d.dest,
      (if covers d s i t then 1 else 0) = ∑ τ ∈ resourceWindow d i t, s.x i τ := by
    intro i hi
    obtain ⟨σ, hσmem, hσ1, hσ0⟩ := sum_eq_one_unique (hb i hi) (honce i hi)
    have hSi : s.S i = σ := by
      rw [hstart i hi]
      exact start_value hσmem hσ1 hσ0
    have hsub : resourceWindow d i t ⊆ Finset.range d.H := by
      intro τ hτ
      simp only [resourceWindow, Finset.mem_Icc] at hτ
      simp only [timePeriods, Finset.mem_range] at ht
      simp only [Finset.mem_range]
      omega
    rw [sum_indicator_window hσ1 hσ0 _ hsub]
    have hcov : covers d s i t ↔ σ ∈ resourceWindow d i t := by
      simp only [covers, hSi, resourceWindow, Finset.mem_Icc]
      omega
    simp only [hcov]
  calc (d.dest.filter (fun i => covers d s i t)).card
      = ∑ i ∈ d.dest, if covers d s i t then 1 else 0 := Finset.card_filter _ _
    _ = ∑ i ∈ d.dest, ∑ τ ∈ resourceWindow d i t, s.x i τ :=
        Finset.sum_congr rfl key
    _ ≤ d.K := hres t ht

/-! ## C1: the concentration update equation of the dynamic model -/

/-- C1.  In every feasible solution of the dynamic model, for every task `i`,
product `p` and time unit `t >= 2`, the concentration satisfies
`w(t) = w(t-1) - lost + inflow - outflow - removal` where
`lost = w(t-1) * dr(p)`, and the resulting concentration is nonnegative. -/
theorem dynamic_concentration_update (dat : DynData) (sol : DynSol)
    (hf : make_lp_feasible dat sol) :
    ∀ i ∈ dat.tasks, ∀ p ∈ PRODUCTS dat, ∀ t ∈ Ttail dat,
      sol.w i p t
          = sol.w i p (t-1) - sol.w i p (t-1) * dat.dr p
            + (∑ s ∈ PRODUCTS dat, sol.q i s p t)
            - (∑ s ∈ PRODUCTS dat, sol.q i p s t)
            - sol.r i p t
        ∧ 0 ≤ sol.w i p t := by
  obtain ⟨hdom, -, -, -, hdeg, hupd, -⟩ := hf
  intro i hi p hp t ht
  have htT : t ∈ Tset dat := by
    simp only [Ttail, Finset.mem_Icc] at ht
    simp only [Tset, Finset.mem_Icc]
    omega
  refine ⟨?_, (hdom.2.1 i hi p hp t htT).1⟩
  rw [hupd t ht i hi p hp, hdeg t ht i hi p hp]

/-! ## C8: product 0 is never neutralized -/

/-- C8.  In every feasible solution of the dynamic model (with the sink
product 0 present), the neutralize indicator of product 0 is zero for every
task and every time unit. -/
theorem product_zero_never_neutralized (dat : DynData) (sol : DynSol)
    (hf : make_lp_feasible dat sol) (hP : 0 < dat.nproducts) :
    ∀ i ∈ dat.tasks, ∀ t ∈ Tset dat, sol.x i 0 t = 0 := by
  obtain ⟨hdom, -, -, -, -, -, -, -, -, -, -, -, -, -, hnn0⟩ := hf
  intro i hi t ht
  have h0mem : 0 ∈ PRODUCTS dat := by
    simp only [PRODUCTS, Finset.mem_range]
    omega
  have hnonneg : ∀ τ ∈ Tset dat, 0 ≤ sol.x i 0 τ := by
    intro τ hτ
    rcases (hdom.2.1 i hi 0 h0mem τ hτ).2.2.2.2 with h | h <;> rw [h] <;> norm_num
  exact (Finset.sum_eq_zero_iff_of_nonneg hnonneg).mp (hnn0 i hi) t ht

/-! ## C4: operation exclusivity, remove-active windows and crew capacities -/

/-- C4.  In every feasible solution of the dynamic model: never are both
operation kinds active on a task at a time unit; the remove-active indicator
equals the sum of remove starts over the trailing window of the task's
removal duration; the number of concurrently active removals is at most the
remove-crew capacity and the number of active neutralize actions is at most
the neutralize-crew capacity.  Moreover the (spec-modelled) simulator check
reports a violating operation sequence as `InfeasibleOperationSequence` and
passes a conforming sequence through unchanged. -/
theorem operation_exclusivity_and_capacities (dat : DynData) (sol : DynSol)
    (hf : make_lp_feasible dat sol) :
    (∀ t ∈ Tset dat, ∀ i ∈ dat.tasks,
        ¬(sol.z i t = 1 ∧ ∃ p ∈ PRODUCTS dat, sol.x i p t = 1))
      ∧ (∀ t ∈ Tset dat, ∀ i ∈ dat.tasks,
          sol.z i t = ∑ τ ∈ removalWindow dat i t, sol.y i τ)
      ∧ (∀ t ∈ Tset dat,
          (dat.tasks.filter (fun i => sol.z i t = 1)).card ≤ dat.capR)
      ∧ (∀ t ∈ Tset dat,
          ((dat.tasks ×ˢ PRODUCTS dat).filter
            (fun ip => sol.x ip.1 ip.2 t = 1)).card ≤ dat.capN)
      ∧ (∀ ops : OpSeq,
          (opsViolation dat ops →
            checkOperationSequence dat ops
              = Except.error SimulationError.InfeasibleOperationSequence)
          ∧ (¬opsViolation dat ops → checkOperationSequence dat ops = Except.ok ops)) := by
  obtain ⟨hdom, -, -, -, -, -, -, -, hzdef, hzcap, hxcap, hexcl, -, -, -⟩ := hf
  have hxnn : ∀ i ∈ dat.tasks, ∀ p ∈ PRODUCTS dat, ∀ t ∈ Tset dat,
      0 ≤ sol.x i p t := by
    intro i hi p hp t ht
    rcases (hdom.2.1 i hi p hp t ht).2.2.2.2 with h | h <;> rw [h] <;> norm_num
  refine ⟨?_, fun t ht i hi => hzdef t ht i hi, ?_, ?_, ?_⟩
  · intro t ht i hi hcontra
    obtain ⟨hz, p, hp, hx⟩ := hcontra
    have hsum := hexcl t ht i hi
    have hle : sol.x i p t ≤ ∑ p' ∈ PRODUCTS dat, sol.x i p' t :=
      Finset.single_le_sum (f := fun p' => sol.x i p' t)
        (fun p' hp' => hxnn i hi p' hp' t ht) hp
    rw [hx] at hle
    rw [hz] at hsum
    linarith
  · intro t ht
    have hle : ((dat.tasks.filter (fun i => sol.z i t = 1)).card : ℚ)
        ≤ (dat.capR : ℚ) := by
      have hcard : ((dat.tasks.filter (fun i => sol.z i t = 1)).card : ℚ)
          = ∑ i ∈ dat.tasks, (if sol.z i t = 1 then (1 : ℚ) else 0) := by
        rw [Finset.card_filter, Nat.cast_sum]
        exact Finset.sum_congr rfl fun i _ => by split <;> simp
      rw [hcard]
      refine le_trans (Finset.sum_le_sum fun i hi => ?_) (hzcap t ht)
      rcases (hdom.2.2.1 i hi t ht).2.2 with h | h <;> simp [h]
    exact_mod_cast hle
  · intro t ht
    have hle : (((dat.tasks ×ˢ PRODUCTS dat).filter
          (fun ip => sol.x ip.1 ip.2 t = 1)).card : ℚ)
        ≤ (dat.capN : ℚ) := by
      have hcard : (((dat.tasks ×ˢ PRODUCTS dat).filter
            (fun ip => sol.x ip.1 ip.2 t = 1)).card : ℚ)
          = ∑ ip ∈ dat.tasks ×ˢ PRODUCTS dat,
              (if sol.x ip.1 ip.2 t = 1 then (1 : ℚ) else 0) := by
        rw [Finset.card_filter, Nat.cast_sum]
        exact Finset.sum_congr rfl fun ip _ => by split <;> simp
      rw [hcard]
      refine le_trans
        (Finset.sum_le_sum (g := fun ip => sol.x ip.1 ip.2 t) fun ip hip => ?_) ?_
      · rcases Finset.mem_product.mp hip with ⟨hi, hp⟩
        rcases (hdom.2.1 ip.1 hi ip.2 hp t ht).2.2.2.2 with h | h <;> simp [h]
      · rw [Finset.sum_product]
        exact hxcap t ht
    exact_mod_cast hle
  · intro ops
    constructor
    · intro hv
      simp [checkOperationSequence, hv]
    · intro hnv
      simp [checkOperationSequence, hnv]

/-! ## Feasibility of the concrete witness data -/

/-- The example static schedule satisfies every constraint of `model_1`. -/
theorem exStat_feasible : model_1_feasible exStatData exStatSol := by
  refine ⟨?_, ?_, ?_, ?_, ?_, ?_, ?_, ?_⟩
  · unfold xBinary
    decide
  · unfold resourceConstraint resourceWindow
    decide
  · unfold cleanOnce
    decide
  · unfold precedenceConstraint
    decide
  · unfold startTimeDef
    decide
  · unfold completionTimeDef
    decide
  · unfold makespanConstraint
    decide
  · simp [overallRiskDef, exStatData, exStatSol]

/-- The all-zero solution satisfies every constraint of the dynamic model on
the example data. -/
theorem exDyn_feasible : make_lp_feasible exDynData exDynSol := by
  refine ⟨⟨?_, ?_, ?_, ?_, ?_⟩, ?_, ?_, ?_, ?_, ?_, ?_, ?_, ?_, ?_, ?_, ?_, ?_, ?_, ?_⟩ <;>
    norm_num [varDomains, binary01, globalRiskConstraint,
      initialConcentrationConstraint, metabolizationConstraint,
      degradationConstraint, concentrationUpdateConstraint,
      neutralizingConstraint, removalConstraint, removalActiveConstraint,
      removalResourceConstraint, neutralizingResourceConstraint,
      operationExclusionConstraint, completionTimeConstraint,
      warmupConstraint, noNeutralizeProductZeroConstraint,
      exDynData, exDynSol, bigM, EPSILON]

/-- Witness for C3: the capacity bound of the proven property evaluated on the
concrete feasible one-task schedule at period 0. -/
theorem static_feasible_capacity_precedence_witness :
    (exStatData.dest.filter (fun i => covers exStatData exStatSol i 0)).card
      ≤ exStatData.K :=
  (static_feasible_capacity_precedence exStatData exStatSol exStat_feasible).1 0
    (by decide)

/-- Witness for C1: the update equation evaluated on the concrete feasible
all-zero dynamic solution at task 1, product 0, time unit 2. -/
theorem dynamic_concentration_update_witness :
    exDynSol.w 1 0 2
        = exDynSol.w 1 0 1 - exDynSol.w 1 0 1 * exDynData.dr 0
          + (∑ s ∈ PRODUCTS exDynData, exDynSol.q 1 s 0 2)
          - (∑ s ∈ PRODUCTS exDynData, exDynSol.q 1 0 s 2)
          - exDynSol.r 1 0 2
      ∧ 0 ≤ exDynSol.w 1 0 2 :=
  dynamic_concentration_update exDynData exDynSol exDyn_feasible 1 (by decide) 0
    (by decide) 2 (by decide)

/-- Witness for C8: the neutralize indicator of product 0 evaluated on the
concrete feasible all-zero dynamic solution at task 1, time unit 1. -/
theorem product_zero_never_neutralized_witness :
    exDynSol.x 1 0 1 = 0 :=
  product_zero_never_neutralized exDynData exDynSol exDyn_feasible (by decide) 1
    (by decide) 1 (by decide)

/-- Witness for C4: the remove-active window equation and the two capacity
bounds evaluated on the concrete feasible all-zero dynamic solution at time
unit 1, together with the checker passing the empty operation sequence
through. -/
theorem operation_exclusivity_and_capacities_witness :
    (exDynSol.z 1 1 = ∑ τ ∈ removalWindow exDynData 1 1, exDynSol.y 1 τ)
      ∧ (exDynData.tasks.filter (fun i => exDynSol.z i 1 = 1)).card
          ≤ exDynData.capR
      ∧ ((exDynData.tasks ×ˢ PRODUCTS exDynData).filter
          (fun ip => exDynSol.x ip.1 ip.2 1 = 1)).card ≤ exDynData.capN
      ∧ checkOperationSequence exDynData exOpSeq = Except.ok exOpSeq := by
  have h := operation_exclusivity_and_capacities exDynData exDynSol exDyn_feasible
  exact ⟨h.2.1 1 (by decide) 1 (by decide), h.2.2.1 1 (by decide),
    h.2.2.2.1 1 (by decide), (h.2.2.2.2 exOpSeq).2 (by decide)⟩

/-! ## C5: the two definitions of the accumulated-risk objective -/

/-- C5 counterexample.  On a single site with risk 1, completion date 2 and
makespan 2, the y_bar time-integral (`overall_risk` of notebook_utils) is 1,
while the risk-weighted completion sum (the `overall_risk` quantity of the
solver model) is 2: the two stated definitions do not denote one quantity. -/
theorem overall_risk_ne_weighted_sum :
    overall_risk {1} (fun _ => 1) (fun _ => 2) 2
      ≠ weighted_sum_completion_dates {1} (fun _ => 1) (fun _ => 2) := by
  norm_num [overall_risk, y_bar, weighted_sum_completion_dates,
    Finset.sum_Icc_succ_top, Finset.Icc_self, Finset.filter_insert,
    Finset.filter_singleton]

/-- C5 (amended).  For every solution whose completion dates are defined, at
least 1 and within the makespan, the y_bar time-integral equals the
risk-weighted sum of completion dates minus the total risk of the sites: the
site `i` contributes risk over the `cd i - 1` time units `1 <= t < cd i`, one
unit fewer than its completion date. -/
theorem overall_risk_eq_weighted_sub_total (dest : Finset ℕ) (r : ℕ → ℚ)
    (cd : ℕ → ℕ) (m : ℕ) (h1 : ∀ i ∈ dest, 1 ≤ cd i)
    (h2 : ∀ i ∈ dest, cd i ≤ m) :
    overall_risk dest r cd m
      = weighted_sum_completion_dates dest r cd - ∑ i ∈ dest, r i := by
  unfold overall_risk y_bar weighted_sum_completion_dates
  have step1 : (∑ t ∈ Finset.Icc 1 m, ∑ i ∈ dest.filter (fun i => t < cd i), r i)
      = ∑ i ∈ dest, ∑ t ∈ Finset.Icc 1 m, if t < cd i then r i else 0 := by
    simp only [Finset.sum_filter]
    exact Finset.sum_comm
  rw [step1]
  have inner : ∀ i ∈ dest,
      (∑ t ∈ Finset.Icc 1 m, if t < cd i then r i else 0)
        = r i * (cd i : ℚ) - r i := by
    intro i hi
    rw [← Finset.sum_filter]
    have hset : (Finset.Icc 1 m).filter (fun t => t < cd i)
        = Finset.Icc 1 (cd i - 1) := by
      ext τ
      simp only [Finset.mem_filter, Finset.mem_Icc]
      have := h2 i hi
      omega
    rw [hset, Finset.sum_const, Nat.card_Icc]
    have h1i := h1 i hi
    have hcast : ((cd i - 1 + 1 - 1 : ℕ) : ℚ) = (cd i : ℚ) - 1 := by
      have heq : cd i - 1 + 1 - 1 = cd i - 1 := by omega
      rw [heq, Nat.cast_sub h1i, Nat.cast_one]
    rw [nsmul_eq_mul, hcast]
    ring
  rw [Finset.sum_congr rfl inner, Finset.sum_sub_distrib]

/-- Witness for C5 (amended), evaluated on the recorded reference solution of
the example instance. -/
theorem overall_risk_eq_weighted_sub_total_witness :
    overall_risk exampleDest exampleRisks exampleCd 56
      = weighted_sum_completion_dates exampleDest exampleRisks exampleCd
        - ∑ i ∈ exampleDest, exampleRisks i :=
  overall_risk_eq_weighted_sub_total exampleDest exampleRisks exampleCd 56
    (by decide) (by decide)

/-! ## C9: evaluation of the reference solution of the example instance -/

/-- C9.  On the example instance with 8 tasks and time horizon 56, the
evaluator applied to the recorded reference solution reports a makespan of 56
and a risk-weighted completion sum (`overall_risk`) of 85.2, matching the
`overall_risk` value recorded in the solution file. -/
theorem example_solution_evaluation :
    solution_makespan exampleSol = some 56
      ∧ weighted_sum_completion_dates exampleDest exampleRisks exampleCd
          = (85.2 : ℚ)
      ∧ exampleSol.lookup "overall_risk" = some (85.2 : ℚ) := by
  refine ⟨by decide, ?_, ?_⟩
  · norm_num [weighted_sum_completion_dates, exampleDest, exampleRisks,
      exampleCd, Finset.sum_Icc_succ_top, Finset.Icc_self]
  · have h : (85.2 : ℚ) = 426/5 := by norm_num
    rw [h]
    simp [exampleSol, List.lookup]

/-! ## C6: monotone relaxation of the precedence order -/

/-- C6.  For normalized risks and thresholds `0 <= d1 < d2 <= 1`, the
precedence order at `d2` is contained in the one at `d1`; the order at
threshold 1 is empty and every order is contained in the one at threshold 0
(raising the threshold only removes pairs). -/
theorem precedence_monotone (tasks : Finset ℕ) (r : ℕ → ℚ) (d1 d2 : ℚ)
    (hr : ∀ i ∈ tasks, 0 ≤ r i ∧ r i ≤ 1) (h0 : 0 ≤ d1) (h12 : d1 < d2)
    (h21 : d2 ≤ 1) :
    precedence tasks r d2 ⊆ precedence tasks r d1
      ∧ precedence tasks r 1 = ∅
      ∧ ∀ d, 0 ≤ d → precedence tasks r d ⊆ precedence tasks r 0 := by
  refine ⟨?_, ?_, ?_⟩
  · intro ij hij
    simp only [precedence, Finset.mem_filter] at hij ⊢
    exact ⟨hij.1, h12.trans hij.2⟩
  · rw [Finset.eq_empty_iff_forall_not_mem]
    intro ij hij
    simp only [precedence, Finset.mem_filter, Finset.mem_product] at hij
    obtain ⟨⟨hi, hj⟩, hlt⟩ := hij
    have hub := (hr ij.1 hi).2
    have hlb := (hr ij.2 hj).1
    linarith
  · intro d hd ij hij
    simp only [precedence, Finset.mem_filter] at hij ⊢
    exact ⟨hij.1, lt_of_le_of_lt hd hij.2⟩

/-- Witness for C6 at the example risks and the test's thresholds 0.1 and
0.3. -/
theorem precedence_monotone_witness :
    precedence exampleDest exampleRisks (3/10)
        ⊆ precedence exampleDest exampleRisks (1/10)
      ∧ precedence exampleDest exampleRisks 1 = ∅
      ∧ ∀ d, 0 ≤ d →
          precedence exampleDest exampleRisks d
            ⊆ precedence exampleDest exampleRisks 0 :=
  precedence_monotone exampleDest exampleRisks (1/10) (3/10)
    (by
      intro i hi
      fin_cases hi <;> norm_num [exampleRisks])
    (by norm_num) (by norm_num) (by norm_num)

/-- The spec-modelled precedence relation agrees with sample pairs of the
fixture recorded by `test_Graph__precedence`: at threshold 0.1 the pair
(8, 6) is ordered while (8, 7) (risk difference exactly 0.1) is not; at
threshold 0.3, (8, 3) is ordered while (8, 4) is not; at threshold 0 the
equal-risk pair (6, 5) is not ordered while (2, 1) is. -/
theorem precedence_fixture_samples :
    (8, 6) ∈ precedence exampleDest exampleRisks (1/10)
      ∧ (8, 7) ∉ precedence exampleDest exampleRisks (1/10)
      ∧ (8, 3) ∈ precedence exampleDest exampleRisks (3/10)
      ∧ (8, 4) ∉ precedence exampleDest exampleRisks (3/10)
      ∧ (6, 5) ∉ precedence exampleDest exampleRisks 0
      ∧ (2, 1) ∈ precedence exampleDest exampleRisks 0 := by
  refine ⟨?_, ?_, ?_, ?_, ?_, ?_⟩ <;>
    norm_num [precedence, Finset.mem_filter, Finset.mem_product, exampleDest,
      exampleRisks]

/-! ## Round-trip of dynamic instance files -/

/-- Evaluating `getD` below the length returns the list element. -/
theorem getD_eq_getElem_of_lt {α : Type} (l : List α) (d : α) (k : ℕ)
    (hk : k < l.length) : l.getD k d = l[k] := by
  simp [List.getD_eq_getElem?_getD, List.getElem?_eq_getElem hk]

/-- Two equal mapped lists agree pointwise. -/
theorem map_eq_map_get {α β γ : Type} (f1 : α → γ) (f2 : β → γ) (l1 : List α)
    (l2 : List β) (h : l1.map f1 = l2.map f2) (k : ℕ) (h1 : k < l1.length)
    (h2 : k < l2.length) : f1 l1[k] = f2 l2[k] := by
  have hq := congrArg (fun (m : List γ) => m[k]?) h
  simp only [List.getElem?_map, List.getElem?_eq_getElem h1,
    List.getElem?_eq_getElem h2, Option.map_some] at hq
  simpa using hq

/-- Association-list lookup of the key of the `j`-th entry returns the `j`-th
value when the keys are distinct. -/
theorem lookup_fst_get {β : Type} (l : List (ℤ × β))
    (hnd : (l.map Prod.fst).Nodup) (j : ℕ) (hj : j < l.length) :
    l.lookup (l[j]).1 = some (l[j]).2 := by
  induction l generalizing j with
  | nil => simp at hj
  | cons hd tl ih =>
    simp only [List.map_cons, List.nodup_cons] at hnd
    cases j with
    | zero => simp [List.lookup]
    | succ k =>
      have hk : k < tl.length := by simpa using hj
      have hmem : (tl[k]).1 ∈ tl.map Prod.fst :=
        List.mem_map_of_mem Prod.fst (List.getElem_mem hk)
      have hne : ((tl[k]).1 == hd.1) = false := by
        simp only [beq_eq_false_iff_ne, ne_eq]
        intro hEq
        exact hnd.1 (hEq ▸ hmem)
      simp only [List.getElem_cons_succ, List.lookup, hne]
      exact ih hnd.2 k hk

/-- Writing back a row of two-decimal values read by index reproduces the
row. -/
theorem reconstruct_row {n : ℕ} (row : List ℚ) (hlen : row.length = n)
    (hrd : ∀ v ∈ row, round2 v = v) :
    (List.range n).map (fun s => round2 (row.getD s 0)) = row := by
  apply List.ext_getElem
  · simp [hlen]
  · intro k h1 h2
    simp only [List.getElem_map, List.getElem_range]
    rw [getD_eq_getElem_of_lt row 0 k h2]
    exact hrd _ (List.getElem_mem h2)

/-- Writing back an id-tagged block of two-decimal values reproduces the
block. -/
theorem reconstruct_pairs {n : ℕ} (l : List (ℤ × ℚ)) (hlen : l.length = n)
    (hid : l.map Prod.fst = (List.range l.length).map (fun (k : ℕ) => (k : ℤ)))
    (hrd : ∀ e ∈ l, round2 e.2 = e.2) :
    (List.range n).map
      (fun (p : ℕ) => ((p : ℤ), round2 ((l.map Prod.snd).getD p 0))) = l := by
  apply List.ext_getElem
  · simp [hlen]
  · intro k h1 h2
    simp only [List.getElem_map, List.getElem_range]
    have hsnd : (l.map Prod.snd).getD k 0 = (l[k]).2 := by
      rw [getD_eq_getElem_of_lt (l.map Prod.snd) 0 k (by simpa using h2)]
      simp
    have hfst : (l[k]).1 = (k : ℤ) := by
      have h := map_eq_map_get Prod.fst (fun (k : ℕ) => (k : ℤ)) l
        (List.range l.length) hid k h2 (by simpa using h2)
      simpa using h
    rw [hsnd, hrd _ (List.getElem_mem h2), ← hfst]

/-- C2 (amended).  For every well-formed dynamic instance file, exporting the
loaded instance reproduces every risk, degradation-rate, metabolization-rate
and concentration value at two decimal places and every integer node field
exactly, but the trailing time-horizon field is written as 100 (the last
element of the hardcoded `time_units` range), regardless of the loaded T. -/
theorem export_load_roundtrip (f : DynFile) (hw : f.wellFormed) :
    _write_instance (load_instance f) = { f with horizon := 100 } := by
  obtain ⟨hdegl, hmetl, hconcl, hidr, hidd, hidm, hidc, hnd, hr2r, hr2d,
    hmrow, hcrow⟩ := hw
  unfold _write_instance load_instance
  simp only [DynFile.mk.injEq, Instance.products, Instance.products_risk,
    Instance.degradation_rates, Instance.metabolizing_rates,
    Instance.initial_concentration, Instance.time_units, List.length_map]
  refine ⟨?_, ?_, ?_, trivial, ?_, ?_⟩
  · exact reconstruct_pairs f.riskLines rfl hidr hr2r
  · exact reconstruct_pairs f.degLines hdegl hidd hr2d
  · apply List.ext_getElem
    · simp [hmetl]
    · intro k h1 h2
      have hkm : k < f.metabLines.length := h2
      simp only [List.getElem_map, List.getElem_range]
      have hfst : (f.metabLines[k]).1 = (k : ℤ) := by
        have h := map_eq_map_get Prod.fst (fun (j : ℕ) => (j : ℤ)) f.metabLines
          (List.range f.metabLines.length) hidm k hkm (by simpa using hkm)
        simpa using h
      have hndm : (f.metabLines.map Prod.fst).Nodup := by
        rw [hidm]
        exact (List.nodup_range _).map (fun a b h => by exact_mod_cast h)
      have hlk : f.metabLines.lookup (k : ℤ) = some (f.metabLines[k]).2 := by
        rw [← hfst]
        exact lookup_fst_get f.metabLines hndm k hkm
      simp only [hlk, Option.getD_some]
      obtain ⟨hrl, hrv⟩ := hmrow _ (List.getElem_mem hkm)
      rw [reconstruct_row _ hrl hrv, ← hfst]
  · apply List.ext_getElem
    · simp [hconcl]
    · intro j h1 h2
      have hjn : j < f.nodeLines.length := by simpa using h1
      have hjc : j < f.concLines.length := by omega
      simp only [List.getElem_map]
      have hfst : (f.concLines[j]).1 = (f.nodeLines[j]).id :=
        map_eq_map_get Prod.fst NodeRec.id f.concLines f.nodeLines hidc j hjc hjn
      have hndc : (f.concLines.map Prod.fst).Nodup := by
        rw [hidc]
        exact hnd
      have hlk : f.concLines.lookup (f.nodeLines[j]).id
          = some (f.concLines[j]).2 := by
        rw [← hfst]
        exact lookup_fst_get f.concLines hndc j hjc
      simp only [hlk, Option.getD_some]
      obtain ⟨hrl, hrv⟩ := hcrow _ (List.getElem_mem hjc)
      rw [reconstruct_row _ hrl hrv, ← hfst]
  · decide

/-- The concrete example file is well-formed. -/
theorem exFile_wellFormed : exFile.wellFormed := by
  refine ⟨rfl, rfl, rfl, by decide, by decide, by decide, by decide, by decide,
    ?_, ?_, ?_, ?_⟩ <;>
    norm_num [exFile, List.forall_mem_cons, round2]

/-- Witness for C2 (amended) at the concrete well-formed example file. -/
theorem export_load_roundtrip_witness :
    _write_instance (load_instance exFile) = { exFile with horizon := 100 } :=
  export_load_roundtrip exFile exFile_wellFormed

/-- C2 counterexample.  The concrete well-formed example file has time horizon
56, but exporting its loaded instance writes 100 as the trailing time-horizon
field: the export does not reproduce the file. -/
theorem export_load_roundtrip_counterexample :
    exFile.wellFormed
      ∧ (_write_instance (load_instance exFile)).horizon = 100
      ∧ exFile.horizon = 56
      ∧ _write_instance (load_instance exFile) ≠ exFile := by
  have h100 : (_write_instance (load_instance exFile)).horizon = 100 := by decide
  refine ⟨exFile_wellFormed, h100, rfl, ?_⟩
  intro hEq
  have h := congrArg DynFile.horizon hEq
  rw [h100] at h
  exact absurd h (by decide)

/-- C7 (amended).  For every loaded dynamic instance, the `time_units` view is
the fixed range `0..100` irrespective of the instance-supplied time horizon;
the file's T is stored in the `time_horizon` attribute (and is not reflected
in `time_units`), and export writes 100 as the trailing time-horizon field. -/
theorem time_units_fixed (f : DynFile) :
    (load_instance f).time_units = List.range 101
      ∧ (load_instance f).time_horizon = f.horizon
      ∧ (_write_instance (load_instance f)).horizon = 100 :=
  ⟨rfl, rfl, by
    show (((List.range 101).getLastD 0 : ℕ) : ℤ) = 100
    decide⟩

/-- C7 counterexample.  The example file supplies T = 56, but the loaded
instance's last time unit is 100 and export writes 100: neither reflects the
instance-supplied T. -/
theorem time_units_counterexample :
    ((load_instance exFile).time_units.getLastD 0 : ℤ) ≠ exFile.horizon
      ∧ (_write_instance (load_instance exFile)).horizon ≠ exFile.horizon := by
  constructor
  · decide
  · decide

/-- C10.  For every dynamic instance, the `resources` view holds exactly the
keys `Qn` and `Qc`, each bound to the sum of the corresponding per-node
capacity attribute; the capacity keys `R` and `N` that the dynamic model
`make_lp` looks up are absent (so the lookup raises on every instance
produced by `load_instance`). -/
theorem resources_lookup (inst : Instance) :
    inst.resources.map Prod.fst = ["Qn", "Qc"]
      ∧ inst.resources.lookup "Qn" = some ((inst.nodes.map NodeRec.Qn).sum)
      ∧ inst.resources.lookup "Qc" = some ((inst.nodes.map NodeRec.Qc).sum)
      ∧ inst.resources.lookup "R" = none
      ∧ inst.resources.lookup "N" = none := by
  refine ⟨rfl, ?_, ?_, ?_, ?_⟩ <;> simp [Instance.resources, List.lookup]

end Optlis
